import Mathlib

/-!
# SecretScanner: the HTTP job-orchestration layer (`server/http.go`)

A shallow embedding of `runSecretScan`, `processScans`, `processImageWrapper`,
`processImage`, `scanAndPublish` and `runCommand`, followed by theorems about the
documents the pipeline hands to the ingestion sink.

Everything outside `server/http.go` that the code calls (temp-dir creation, the image-save
command, the clock, the scan engine, the record converter, the ingestion sink) is a field of
`Env`: the code is a function of what these calls answer.
-/

namespace SecretScanner

/-! ## Constants (`http.go`, lines 23-29) -/

def scanStatusComplete : String := "COMPLETE"
def scanStatusError : String := "ERROR"
def defaultScanConcurrency : Int := 2
def secretScanIndexName : String := "secret-scan"
def secretScanLogsIndexName : String := "secret-scan-logs"

/-! ## Data model -/

/-- A Go value of type `interface{}` stored in a document, seen through `json.Marshal`:
`nil`, a `string`, an `int64`, a value of any other type that marshals (given by its JSON
text), or a value `json.Marshal` rejects (given by the error text). -/
inductive Value where
  | null
  | str (s : String)
  | int (n : Int)
  | encoded (json : String)
  | unsupported (err : String)
  deriving DecidableEq, Repr

/-- A document, `map[string]interface{}`: a finite map given by its entries, at most one per
key (`Doc.set` keeps it so). -/
structure Doc where
  entries : List (String × Value)
  deriving DecidableEq, Repr

namespace Doc

/-- The result of `make(map[string]interface{})`. -/
def empty : Doc := ⟨[]⟩

/-- The read `doc[key]` with its presence flag: `none` when the key is absent. -/
def get (d : Doc) (key : String) : Option Value :=
  d.entries.lookup key

/-- The assignment `doc[key] = value`: the key is inserted, or its value replaced. -/
def set (d : Doc) (key : String) (value : Value) : Doc :=
  ⟨(key, value) :: d.entries.filter (fun kv => kv.1 != key)⟩

/-- Whether the key is present in the map, whatever its value (`nil` included). -/
def contains (d : Doc) (key : String) : Bool :=
  (d.get key).isSome

end Doc

/-- The type `url.Values`, `map[string][]string`: an association list read as a map, the first
entry of a key giving its value. -/
structure Values where
  entries : List (String × List String)
  deriving DecidableEq, Repr

namespace Values

/-- The read `form[key]`: the `nil` slice when the key is absent. -/
def index (form : Values) (key : String) : List String :=
  (form.entries.lookup key).getD []

/-- The method `url.Values.Get`: the first value of the key, `""` when there is none. -/
def Get (form : Values) (key : String) : String :=
  (form.index key).headD ""

/-- What `for key, value := range form` visits: every key of the map once, with its value. -/
def range (form : Values) : List (String × List String) :=
  (form.entries.map Prod.fst).dedup.map (fun key => (key, form.index key))

end Values

/-- The struct `imageParameters` (`http.go`, lines 36-40). -/
structure imageParameters where
  imageName : String
  scanId : String
  form : Values
  deriving DecidableEq, Repr

/-- One field of the record type behind `*secret` (its declaration is in package `output`):
the field's name and the value `reflect` reads from it. -/
structure Field where
  name : String
  value : Value
  deriving DecidableEq, Repr

/-- A record `*secret` of the slice `output.SecretsToSecretInfos` returns: its fields in
declaration order. The element type is declared outside `http.go`, so the field list is
arbitrary here; the pointer is taken to be non-nil. -/
abbrev SecretInfo := List Field

/-- What `cmd.Run()` leaves behind: its error (`none` for `nil`) and the two buffers. -/
structure CmdResult where
  err : Option String
  stdout : String
  stderr : String
  deriving DecidableEq, Repr

/-- The collaborators of `http.go`, each given by what it answers. `σ` is the element type of
`res.Secrets`. The clock functions take the number of earlier reads within the job; the sink
takes the number of earlier ingest calls, the JSON document and the index name, and answers
`nil` (`none`) or an error. `unicodeIsUpper` is `unicode.IsUpper` on runes outside ASCII. -/
structure Env (σ : Type) where
  unicodeIsUpper : Char → Bool
  MgmtConsoleUrl : String
  DeepfenceKey : String
  GetTmpDir : String → Except String String
  cmdRun : List String → CmdResult
  GetTimestamp : Nat → Int
  GetCurrentTime : Nat → String
  ExtractAndScanFromTar : String → String → Except String (List σ)
  SecretsToSecretInfos : List σ → List SecretInfo
  IngestSecretScanResults : Nat → Doc → String → Option String

/-- One call `output.IngestSecretScanResults(string(byteJson), indexName)`. The JSON text is
the object with exactly the entries of the marshalled map, which is what is recorded. -/
structure IngestCall where
  doc : Doc
  indexName : String
  deriving DecidableEq, Repr

/-- The observable effects of a run: the ingest calls in call order, and the lines printed with
`fmt.Println`. -/
structure Trace where
  sink : List IngestCall
  log : List String
  deriving DecidableEq, Repr

namespace Trace

/-- The trace before the run: nothing ingested, nothing printed. -/
def init : Trace := ⟨[], []⟩

/-- The effect of `fmt.Println(line)`. -/
def println (t : Trace) (line : String) : Trace :=
  { t with log := t.log ++ [line] }

end Trace

/-! ## `encoding/json` and `reflect`, as far as `scanAndPublish` uses them -/

/-- The entry on which `json.Marshal` fails: map keys are encoded in sorted order, so it is the
entry with the least key among those holding a rejected value. -/
def marshalError (d : Doc) : Option (String × String) :=
  d.entries.foldl
    (fun acc kv =>
      match kv.2 with
      | .unsupported e =>
        match acc with
        | some (k, e0) => if kv.1 < k then some (kv.1, e) else some (k, e0)
        | none => some (kv.1, e)
      | _ => acc)
    none

/-- The call `json.Marshal(doc)`: the error of the first rejected value, else the JSON object
holding the entries of `doc`. -/
def jsonMarshal (d : Doc) : Except String Doc :=
  match marshalError d with
  | some (_, e) => .error e
  | none => .ok d

/-- Every value of the document is one `json.Marshal` accepts. -/
def Doc.Supported (d : Doc) : Prop :=
  ∀ kv ∈ d.entries, ∀ e, kv.2 ≠ Value.unsupported e

/-- Whether `json.Marshal` accepts the document. -/
def serialises (d : Doc) : Bool :=
  (marshalError d).isNone

/-- Whether a struct field name is exported (`go/token.IsExported`): its first rune is an
upper-case letter. -/
def isExported (unicodeIsUpper : Char → Bool) (name : String) : Bool :=
  match name.data with
  | [] => false
  | c :: _ =>
    if c.toNat < 128 then decide (65 ≤ c.toNat ∧ c.toNat ≤ 90) else unicodeIsUpper c

/-- Lines 206-212: every field of `*secret` for which `CanInterface()` holds, that is every
exported field, is stored under its own name. -/
def reflectFields (unicodeIsUpper : Char → Bool) (secret : SecretInfo) (doc : Doc) : Doc :=
  secret.foldl
    (fun d f => if isExported unicodeIsUpper f.name then d.set f.name f.value else d)
    doc

/-- Lines 158-162 and 194-198: the first value of every non-empty form field is stored under
the field's name. -/
def copyForm (postForm : Values) (doc : Doc) : Doc :=
  postForm.range.foldl
    (fun d kv =>
      match kv.2 with
      | v :: _ => d.set kv.1 (.str v)
      | [] => d)
    doc

/-- The call `output.IngestSecretScanResults(string(byteJson), indexName)`: recorded in the
trace, and answered by the sink. -/
def ingest {σ : Type} (env : Env σ) (t : Trace) (doc : Doc) (indexName : String) :
    Trace × Option String :=
  ({ t with sink := t.sink ++ [⟨doc, indexName⟩] },
    env.IngestSecretScanResults t.sink.length doc indexName)

/-! ## `scanAndPublish` (lines 150-240) -/

/-- Lines 151-164: the status document before the scan. -/
def inProgressDoc {σ : Type} (env : Env σ) (imageName scanId : String) (postForm : Values) :
    Doc :=
  let secretScanLogDoc := Doc.empty
  let secretScanLogDoc := secretScanLogDoc.set "scan_status" (.str "IN_PROGRESS")
  let secretScanLogDoc := secretScanLogDoc.set "node_id" (.str imageName)
  let secretScanLogDoc := secretScanLogDoc.set "node_name" (.str imageName)
  let secretScanLogDoc := secretScanLogDoc.set "time_stamp" (.int (env.GetTimestamp 0))
  let secretScanLogDoc := secretScanLogDoc.set "@timestamp" (.str (env.GetCurrentTime 0))
  let secretScanLogDoc := secretScanLogDoc.set "scan_id" (.str scanId)
  let secretScanLogDoc := copyForm postForm secretScanLogDoc
  let secretScanLogDoc := secretScanLogDoc.set "image_name_with_tag_list" .null
  let secretScanLogDoc := secretScanLogDoc.set "scan_id_list" .null
  secretScanLogDoc

/-- Lines 193-212: the document of one finding. -/
def secretScanDoc {σ : Type} (env : Env σ) (imageName scanId : String) (postForm : Values)
    (timestamp : Int) (currTime : String) (secret : SecretInfo) : Doc :=
  let secretScanDoc := Doc.empty
  let secretScanDoc := copyForm postForm secretScanDoc
  let secretScanDoc := secretScanDoc.set "image_name_with_tag_list" .null
  let secretScanDoc := secretScanDoc.set "scan_id_list" .null
  let secretScanDoc := secretScanDoc.set "time_stamp" (.int timestamp)
  let secretScanDoc := secretScanDoc.set "@timestamp" (.str currTime)
  let secretScanDoc := secretScanDoc.set "node_id" (.str imageName)
  let secretScanDoc := secretScanDoc.set "node_name" (.str imageName)
  let secretScanDoc := secretScanDoc.set "scan_id" (.str scanId)
  reflectFields env.unicodeIsUpper secret secretScanDoc

/-- Lines 176-177: the status document of a failed scan, `err` being `err.Error()`. -/
def errorLogDoc (secretScanLogDoc : Doc) (err : String) : Doc :=
  let secretScanLogDoc := secretScanLogDoc.set "scan_status" (.str "ERROR")
  let secretScanLogDoc := secretScanLogDoc.set "scan_message" (.str err)
  secretScanLogDoc

/-- Lines 223-230: the status document after the loop, `err` being the `err` of the function
(`none` for `nil`). -/
def finalLogDoc (secretScanLogDoc : Doc) (err : Option String) (timestamp : Int)
    (currTime : String) : Doc :=
  let secretScanLogDoc :=
    match err with
    | none => secretScanLogDoc.set "scan_status" (.str scanStatusComplete)
    | some e =>
      (secretScanLogDoc.set "scan_status" (.str scanStatusError)).set "scan_message" (.str e)
  let secretScanLogDoc := secretScanLogDoc.set "time_stamp" (.int timestamp)
  let secretScanLogDoc := secretScanLogDoc.set "@timestamp" (.str currTime)
  secretScanLogDoc

/-- The ingest call of line 218 for one finding. -/
def resultCall {σ : Type} (env : Env σ) (imageName scanId : String) (postForm : Values)
    (timestamp : Int) (currTime : String) (secret : SecretInfo) : IngestCall :=
  ⟨secretScanDoc env imageName scanId postForm timestamp currTime secret, secretScanIndexName⟩

/-- The loop of lines 192-222 over the remaining findings. The flag is `false` when the loop
left `scanAndPublish` through the `return` of line 216. The `err` assigned in the body is the
one declared in the body (line 213): the function's own `err` is not touched. -/
def publishSecrets {σ : Type} (env : Env σ) (imageName scanId : String) (postForm : Values)
    (timestamp : Int) (currTime : String) : List SecretInfo → Trace → Trace × Bool
  | [], t => (t, true)
  | secret :: rest, t =>
    match jsonMarshal (secretScanDoc env imageName scanId postForm timestamp currTime secret) with
    | .error e =>
      (t.println ("Error in marshalling secret result object to json:" ++ e), false)
    | .ok byteJson =>
      let r := ingest env t byteJson secretScanIndexName
      let t :=
        match r.2 with
        | some e => r.1.println ("Error in sending data to secretScanIndex:" ++ e)
        | none => r.1
      publishSecrets env imageName scanId postForm timestamp currTime rest t

/-- The function `scanAndPublish`. -/
def scanAndPublish {σ : Type} (env : Env σ) (imageName scanId tempDir : String)
    (postForm : Values) (t : Trace) : Trace :=
  let secretScanLogDoc := inProgressDoc env imageName scanId postForm
  let t :=
    match jsonMarshal secretScanLogDoc with
    | .error e =>
      t.println ("Error in marshalling secret in_progress log object to json:" ++ e)
    | .ok byteJson =>
      let r := ingest env t byteJson secretScanLogsIndexName
      match r.2 with
      | some e => r.1.println ("Error in updating in_progress log" ++ e)
      | none => r.1
  match env.ExtractAndScanFromTar tempDir imageName with
  | .error e =>
    let secretScanLogDoc := errorLogDoc secretScanLogDoc e
    match jsonMarshal secretScanLogDoc with
    | .error e1 => t.println ("Error in marshalling secret result object to json:" ++ e1)
    | .ok byteJson =>
      let r := ingest env t byteJson secretScanLogsIndexName
      match r.2 with
      | some e2 => r.1.println ("error ingesting data: " ++ e2)
      | none => r.1
  | .ok res =>
    -- the function's `err` is `nil` from here on
    let err : Option String := none
    let timestamp := env.GetTimestamp 1
    let currTime := env.GetCurrentTime 1
    let secrets := env.SecretsToSecretInfos res
    match publishSecrets env imageName scanId postForm timestamp currTime secrets t with
    | (t, false) => t
    | (t, true) =>
      let secretScanLogDoc := finalLogDoc secretScanLogDoc err timestamp currTime
      match jsonMarshal secretScanLogDoc with
      | .error e => t.println ("Error in marshalling secretScanLogDoc to json:" ++ e)
      | .ok byteJson =>
        let r := ingest env t byteJson secretScanLogsIndexName
        match r.2 with
        | some e => r.1.println ("Error in sending data to secretScanLogsIndex:" ++ e)
        | none => r.1

/-! ## `runCommand` and `processImage` (lines 132-148 and 270-280) -/

/-- The function `runCommand`: the output buffer (`none` for the `nil` pointer) and the
error. -/
def runCommand {σ : Type} (env : Env σ) (cmd : List String) (operation : String) :
    Option String × Option String :=
  let r := env.cmdRun cmd
  match r.err with
  | some errorOnRun => (none, some (operation ++ errorOnRun ++ ": " ++ r.stderr))
  | none => (some r.stdout, none)

/-- The method `(*bytes.Buffer).String`, which prints a `nil` receiver as `<nil>`. -/
def bufferString : Option String → String
  | some s => s
  | none => "<nil>"

/-- Lines 138-140: the command line built by `exec.Command`. -/
def imageSaveCommand {σ : Type} (env : Env σ) (imageName : String) (form : Values)
    (tempFolder : String) : List String :=
  ["python3", "/home/deepfence/usr/registry_image_save.py",
    "--image_name_with_tag", imageName, "--registry_type", form.Get "registry_type",
    "--mgmt_console_url", env.MgmtConsoleUrl, "--deepfence_key", env.DeepfenceKey,
    "--credential_id", form.Get "credential_id", "--output_folder", tempFolder]

/-- The function `processImage`. -/
def processImage {σ : Type} (env : Env σ) (imageName scanId : String) (form : Values)
    (t : Trace) : Trace :=
  match env.GetTmpDir imageName with
  | .error e => t.println ("error creating temp dirs:" ++ e)
  | .ok tempFolder =>
    let r := runCommand env (imageSaveCommand env imageName form tempFolder)
      ("Image Save:" ++ imageName)
    let t := t.println ("Output from python save:" ++ bufferString r.1)
    match r.2 with
    | some e => t.println ("error saving image:" ++ e)
    | none => scanAndPublish env imageName scanId tempFolder form t

/-- The argument of `processImageWrapper`, an `interface{}`: an `imageParameters` value or a
value of another type. -/
inductive Payload where
  | params (p : imageParameters)
  | other
  deriving DecidableEq, Repr

/-- The function `processImageWrapper` (lines 122-130). -/
def processImageWrapper {σ : Type} (env : Env σ) (imageParamsInterface : Payload)
    (t : Trace) : Trace :=
  match imageParamsInterface with
  | .other => t.println "Error reading input from API"
  | .params imageParams =>
    processImage env imageParams.imageName imageParams.scanId imageParams.form t

/-! ## `processScans` and `runSecretScan` (lines 55-67 and 115-120) -/

/-- What a run of `processScans` does: the jobs handed to `httpScanWorkerPool.Process` by the
`go` statements executed, in order, and the run-time panic that ended the run, if any, as
(index, length) of the failed slice access. -/
structure Dispatch where
  submitted : List imageParameters
  panicked : Option (Nat × Nat)
  deriving DecidableEq, Repr

/-- The loop of `processScans` from position `index` on. The operand
`form["scan_id_list"][index]` is evaluated by the `go` statement itself, before the job is
handed over; out of range, it panics. -/
def processScansFrom (form : Values) : Nat → List String → List imageParameters → Dispatch
  | _, [], submitted => ⟨submitted, none⟩
  | index, imageName :: rest, submitted =>
    match (form.index "scan_id_list")[index]? with
    | none => ⟨submitted, some (index, (form.index "scan_id_list").length)⟩
    | some scanId =>
      processScansFrom form (index + 1) rest (submitted ++ [⟨imageName, scanId, form⟩])

/-- The function `processScans`. -/
def processScans (form : Values) : Dispatch :=
  let imageNameList := form.index "image_name_with_tag_list"
  processScansFrom form 0 imageNameList []

/-- The request as `runSecretScan` reads it: what `request.ParseForm()` returns, and
`request.PostForm` after that call. -/
structure Request where
  parseFormErr : Option String
  PostForm : Values
  deriving DecidableEq, Repr

/-- What `runSecretScan` does: the status code and body written to the `ResponseWriter`, the
`Content-Type` header the code sets (`none` when it sets none), and the form `processScans` is started on by the `go` statement, if
any. -/
structure Response where
  status : Nat
  contentType : Option String
  body : String
  spawned : Option Values
  deriving DecidableEq, Repr

/-- The constant `http.StatusOK`. -/
def StatusOK : Nat := 200

/-- The constant `http.StatusConflict`. -/
def StatusConflict : Nat := 409

/-- The function `runSecretScan`. A write without `WriteHeader` sends status 200;
`http.Error` sets a plain-text content type and writes the message and a newline. -/
def runSecretScan (request : Request) : Response :=
  match request.parseFormErr with
  | some err => ⟨StatusOK, none, "ParseForm() err: " ++ err, none⟩
  | none =>
    if request.PostForm.Get "image_name_with_tag_list" = "" then
      ⟨StatusConflict, some "text/plain; charset=utf-8",
        "\x7b\"error\":\"Image Name with tag list is required \"\x7d" ++ "\n", none⟩
    else
      ⟨StatusOK, some "application/json", "\x7b\"status\": \"Scan Queued\"\x7d",
        some request.PostForm⟩

/-! ## Concrete jobs -/

/-- A form with one image, one scan id and two scalar fields. -/
def alpineForm : Values :=
  ⟨[("image_name_with_tag_list", ["alpine:3.18"]), ("scan_id_list", ["s1"]),
    ("registry_type", ["ecr"]), ("credential_id", ["7"])]⟩

/-- The form `alpineForm` with a caller-supplied field named `node_id`. -/
def nodeIdForm : Values :=
  ⟨[("image_name_with_tag_list", ["alpine:3.18"]), ("scan_id_list", ["s1"]),
    ("node_id", ["other-host"])]⟩

/-- A form with two images and one scan id. -/
def mismatchedForm : Values :=
  ⟨[("image_name_with_tag_list", ["alpine:3.18", "nginx:latest"]), ("scan_id_list", ["s1"])]⟩

/-- A finding with two exported fields and one unexported field. -/
def awsKeySecret : SecretInfo :=
  [⟨"RuleName", .str "aws-key"⟩, ⟨"Severity", .encoded "7.5"⟩, ⟨"sizeCache", .int 0⟩]

/-- An environment in which every stage succeeds, the scan answering `scan` and the sink
answering `sinkAnswer`. -/
def okEnv (scan : Except String (List SecretInfo)) (sinkAnswer : Option String) :
    Env SecretInfo where
  unicodeIsUpper := fun _ => false
  MgmtConsoleUrl := "console"
  DeepfenceKey := "key"
  GetTmpDir := fun imageName => .ok ("/tmp/" ++ imageName)
  cmdRun := fun _ => ⟨none, "saved", ""⟩
  GetTimestamp := fun n => 1700000000 + n
  GetCurrentTime := fun n => if n = 0 then "2023-11-14T22:13:20.000Z" else "2023-11-14T22:13:21.000Z"
  ExtractAndScanFromTar := fun _ _ => scan
  SecretsToSecretInfos := fun secrets => secrets
  IngestSecretScanResults := fun _ _ _ => sinkAnswer

/-- A request whose URL query has a bad escape: `ParseForm` reports it, after the body has
been parsed into `PostForm`. -/
def badEscapeRequest : Request :=
  ⟨some "invalid URL escape \"%zz\"", alpineForm⟩

/-- A form whose `image_name_with_tag_list` has an empty first value followed by an
identifier. -/
def emptyFirstForm : Values :=
  ⟨[("image_name_with_tag_list", ["", "alpine:3.18"]), ("scan_id_list", ["s0", "s1"])]⟩

/-- The environment `okEnv` with a failing image-save command. -/
def noSaveEnv : Env SecretInfo :=
  { okEnv (.ok []) none with cmdRun := fun _ => ⟨some "exit status 1", "", "pull denied"⟩ }

/-- The environment `okEnv` with a failing temp-dir creation. -/
def noTmpDirEnv : Env SecretInfo :=
  { okEnv (.ok []) none with GetTmpDir := fun _ => .error "mkdir /tmp: no space left on device" }

/-! ## Documents as finite maps -/

theorem Doc.get_set_same (d : Doc) (key : String) (value : Value) :
    (d.set key value).get key = some value := by
  simp [Doc.get, Doc.set, List.lookup]

theorem lookup_filter_ne (key k : String) (h : k ≠ key) (es : List (String × Value)) :
    (es.filter (fun kv => kv.1 != key)).lookup k = es.lookup k := by
  induction es with
  | nil => rfl
  | cons kv rest ih =>
    obtain ⟨a, b⟩ := kv
    by_cases ha : a = key
    · subst ha
      have hk : (k == a) = false := by simpa using h
      simp [List.filter, List.lookup, hk, ih]
    · have hne : (a != key) = true := by simpa using ha
      simp only [List.filter, hne, List.lookup]
      rw [ih]

theorem Doc.get_set_ne (d : Doc) (key k : String) (value : Value) (h : k ≠ key) :
    (d.set key value).get k = d.get k := by
  have hk : (k == key) = false := by simpa using h
  simp only [Doc.get, Doc.set, List.lookup, hk]
  exact lookup_filter_ne key k h d.entries

/-! ## Reflection never touches a key that is not an exported name -/

theorem reflectFields_get (up : Char → Bool) (key : String) (h : isExported up key = false)
    (secret : SecretInfo) (doc : Doc) :
    (reflectFields up secret doc).get key = doc.get key := by
  unfold reflectFields
  induction secret generalizing doc with
  | nil => rfl
  | cons f rest ih =>
    simp only [List.foldl_cons]
    rw [ih]
    by_cases hf : isExported up f.name = true
    · have hne : key ≠ f.name := by
        intro heq
        rw [heq, hf] at h
        exact Bool.noConfusion h
      simp only [hf, if_true]
      exact Doc.get_set_ne doc f.name key f.value hne
    · simp [hf]

/-! ## Status documents always serialise -/

theorem marshalError_fold_supported (es : List (String × Value))
    (h : ∀ kv ∈ es, ∀ e, kv.2 ≠ Value.unsupported e) (acc : Option (String × String)) :
    es.foldl
      (fun acc kv =>
        match kv.2 with
        | .unsupported e =>
          match acc with
          | some (k, e0) => if kv.1 < k then some (kv.1, e) else some (k, e0)
          | none => some (kv.1, e)
        | _ => acc)
      acc = acc := by
  induction es generalizing acc with
  | nil => rfl
  | cons kv rest ih =>
    simp only [List.foldl_cons]
    have hkv := h kv (List.mem_cons_self _ _)
    have hrest : ∀ kv ∈ rest, ∀ e, kv.2 ≠ Value.unsupported e :=
      fun x hx => h x (List.mem_cons_of_mem _ hx)
    obtain ⟨k, v⟩ := kv
    cases v with
    | unsupported e => exact absurd rfl (hkv e)
    | null => exact ih hrest acc
    | str s => exact ih hrest acc
    | int n => exact ih hrest acc
    | encoded j => exact ih hrest acc

theorem jsonMarshal_supported (d : Doc) (h : d.Supported) : jsonMarshal d = .ok d := by
  have hnone : marshalError d = none := marshalError_fold_supported d.entries h none
  simp [jsonMarshal, hnone]

theorem Doc.supported_empty : Doc.empty.Supported := by
  intro kv hkv
  simp [Doc.empty] at hkv

theorem Doc.supported_set (d : Doc) (key : String) (value : Value) (h : d.Supported)
    (hv : ∀ e, value ≠ Value.unsupported e) : (d.set key value).Supported := by
  intro kv hkv
  simp only [Doc.set, List.mem_cons, List.mem_filter] at hkv
  rcases hkv with rfl | ⟨hmem, _⟩
  · exact hv
  · exact h kv hmem

theorem copyForm_supported (postForm : Values) (doc : Doc) (h : doc.Supported) :
    (copyForm postForm doc).Supported := by
  unfold copyForm
  generalize postForm.range = visited
  induction visited generalizing doc with
  | nil => exact h
  | cons kv rest ih =>
    simp only [List.foldl_cons]
    apply ih
    obtain ⟨k, vs⟩ := kv
    cases vs with
    | nil => exact h
    | cons v _ => exact Doc.supported_set doc k (.str v) h (fun e he => Value.noConfusion he)

theorem inProgressDoc_supported {σ : Type} (env : Env σ) (imageName scanId : String)
    (postForm : Values) : (inProgressDoc env imageName scanId postForm).Supported := by
  unfold inProgressDoc
  refine Doc.supported_set _ _ _ (Doc.supported_set _ _ _ (copyForm_supported _ _ ?_) ?_) ?_
  · refine Doc.supported_set _ _ _ (Doc.supported_set _ _ _ (Doc.supported_set _ _ _
      (Doc.supported_set _ _ _ (Doc.supported_set _ _ _ (Doc.supported_set _ _ _
        Doc.supported_empty ?_) ?_) ?_) ?_) ?_) ?_ <;>
      exact fun e he => Value.noConfusion he
  · exact fun e he => Value.noConfusion he
  · exact fun e he => Value.noConfusion he

theorem errorLogDoc_supported (d : Doc) (err : String) (h : d.Supported) :
    (errorLogDoc d err).Supported := by
  unfold errorLogDoc
  refine Doc.supported_set _ _ _ (Doc.supported_set _ _ _ h ?_) ?_ <;>
    exact fun e he => Value.noConfusion he

theorem finalLogDoc_supported (d : Doc) (err : Option String) (timestamp : Int)
    (currTime : String) (h : d.Supported) :
    (finalLogDoc d err timestamp currTime).Supported := by
  unfold finalLogDoc
  refine Doc.supported_set _ _ _ (Doc.supported_set _ _ _ ?_ ?_) ?_
  · cases err with
    | none => exact Doc.supported_set _ _ _ h (fun e he => Value.noConfusion he)
    | some m =>
      refine Doc.supported_set _ _ _ (Doc.supported_set _ _ _ h ?_) ?_ <;>
        exact fun e he => Value.noConfusion he
  · exact fun e he => Value.noConfusion he
  · exact fun e he => Value.noConfusion he

/-! ## What `scanAndPublish` hands to the sink -/

theorem jsonMarshal_of_serialises (d : Doc) (h : serialises d = true) : jsonMarshal d = .ok d := by
  unfold serialises at h
  unfold jsonMarshal
  cases hm : marshalError d with
  | none => rfl
  | some p => rw [hm] at h; exact Bool.noConfusion h

theorem jsonMarshal_of_not_serialises (d : Doc) (h : serialises d = false) :
    ∃ e, jsonMarshal d = .error e := by
  unfold serialises at h
  unfold jsonMarshal
  cases hm : marshalError d with
  | none => rw [hm] at h; exact Bool.noConfusion h
  | some p => exact ⟨p.2, rfl⟩

theorem ingest_sink {σ : Type} (env : Env σ) (t : Trace) (doc : Doc) (indexName prefix_ : String) :
    (match (ingest env t doc indexName).2 with
      | some e => (ingest env t doc indexName).1.println (prefix_ ++ e)
      | none => (ingest env t doc indexName).1).sink = t.sink ++ [⟨doc, indexName⟩] := by
  cases h : (ingest env t doc indexName).2 <;> simp [ingest, Trace.println]

theorem publishSecrets_sink {σ : Type} (env : Env σ) (imageName scanId : String)
    (postForm : Values) (timestamp : Int) (currTime : String) (secrets : List SecretInfo)
    (t : Trace) :
    (publishSecrets env imageName scanId postForm timestamp currTime secrets t).1.sink =
      t.sink ++ (secrets.takeWhile (fun secret =>
        serialises (secretScanDoc env imageName scanId postForm timestamp currTime secret))).map
          (resultCall env imageName scanId postForm timestamp currTime) ∧
    (publishSecrets env imageName scanId postForm timestamp currTime secrets t).2 =
      secrets.all (fun secret =>
        serialises (secretScanDoc env imageName scanId postForm timestamp currTime secret)) := by
  induction secrets generalizing t with
  | nil => simp [publishSecrets]
  | cons secret rest ih =>
    cases hs : serialises (secretScanDoc env imageName scanId postForm timestamp currTime secret) with
    | true =>
      have hm := jsonMarshal_of_serialises _ hs
      simp only [publishSecrets, hm, List.takeWhile_cons, hs, List.all_cons, Bool.true_and,
        if_true, List.map_cons]
      obtain ⟨h1, h2⟩ := ih (match (ingest env t
          (secretScanDoc env imageName scanId postForm timestamp currTime secret)
          secretScanIndexName).2 with
        | some e => (ingest env t
            (secretScanDoc env imageName scanId postForm timestamp currTime secret)
            secretScanIndexName).1.println ("Error in sending data to secretScanIndex:" ++ e)
        | none => (ingest env t
            (secretScanDoc env imageName scanId postForm timestamp currTime secret)
            secretScanIndexName).1)
      refine ⟨?_, h2⟩
      rw [h1, ingest_sink]
      simp [resultCall]
    | false =>
      obtain ⟨e, hm⟩ := jsonMarshal_of_not_serialises _ hs
      simp [publishSecrets, hm, hs, Trace.println]

theorem scanAndPublish_sink_error {σ : Type} (env : Env σ) (imageName scanId tempDir : String)
    (postForm : Values) (t : Trace) (e : String)
    (hscan : env.ExtractAndScanFromTar tempDir imageName = .error e) :
    (scanAndPublish env imageName scanId tempDir postForm t).sink =
      t.sink ++ [⟨inProgressDoc env imageName scanId postForm, secretScanLogsIndexName⟩,
        ⟨errorLogDoc (inProgressDoc env imageName scanId postForm) e,
          secretScanLogsIndexName⟩] := by
  have h1 := jsonMarshal_supported _ (inProgressDoc_supported env imageName scanId postForm)
  have h2 := jsonMarshal_supported _
    (errorLogDoc_supported _ e (inProgressDoc_supported env imageName scanId postForm))
  simp only [scanAndPublish, h1, hscan, h2]
  rw [ingest_sink, ingest_sink]
  simp

theorem scanAndPublish_sink_ok {σ : Type} (env : Env σ) (imageName scanId tempDir : String)
    (postForm : Values) (t : Trace) (res : List σ)
    (hscan : env.ExtractAndScanFromTar tempDir imageName = .ok res) :
    (scanAndPublish env imageName scanId tempDir postForm t).sink =
      t.sink ++ [⟨inProgressDoc env imageName scanId postForm, secretScanLogsIndexName⟩] ++
        ((env.SecretsToSecretInfos res).takeWhile (fun secret =>
          serialises (secretScanDoc env imageName scanId postForm (env.GetTimestamp 1)
            (env.GetCurrentTime 1) secret))).map
          (resultCall env imageName scanId postForm (env.GetTimestamp 1)
            (env.GetCurrentTime 1)) ++
        (if (env.SecretsToSecretInfos res).all (fun secret =>
            serialises (secretScanDoc env imageName scanId postForm (env.GetTimestamp 1)
              (env.GetCurrentTime 1) secret)) = true then
          [⟨finalLogDoc (inProgressDoc env imageName scanId postForm) none
            (env.GetTimestamp 1) (env.GetCurrentTime 1), secretScanLogsIndexName⟩]
        else []) := by
  have h1 := jsonMarshal_supported _ (inProgressDoc_supported env imageName scanId postForm)
  have h2 := jsonMarshal_supported _
    (finalLogDoc_supported _ none (env.GetTimestamp 1) (env.GetCurrentTime 1)
      (inProgressDoc_supported env imageName scanId postForm))
  simp only [scanAndPublish, h1, hscan, h2]
  generalize hT : (match (ingest env t (inProgressDoc env imageName scanId postForm)
      secretScanLogsIndexName).2 with
    | some e => (ingest env t (inProgressDoc env imageName scanId postForm)
        secretScanLogsIndexName).1.println ("Error in updating in_progress log" ++ e)
    | none => (ingest env t (inProgressDoc env imageName scanId postForm)
        secretScanLogsIndexName).1) = t1
  have ht1 : t1.sink = t.sink ++ [⟨inProgressDoc env imageName scanId postForm,
      secretScanLogsIndexName⟩] := by
    rw [← hT]; exact ingest_sink env t _ _ _
  obtain ⟨hp1, hp2⟩ := publishSecrets_sink env imageName scanId postForm (env.GetTimestamp 1)
    (env.GetCurrentTime 1) (env.SecretsToSecretInfos res) t1
  generalize hP : publishSecrets env imageName scanId postForm (env.GetTimestamp 1)
    (env.GetCurrentTime 1) (env.SecretsToSecretInfos res) t1 = p at hp1 hp2
  obtain ⟨t2, done⟩ := p
  simp only at hp1 hp2
  cases done with
  | false =>
    simp only [← hp2]
    rw [hp1, ht1]
    simp
  | true =>
    simp only [← hp2]
    rw [ingest_sink, hp1, ht1]
    simp

/-! ## The fields of the documents -/

theorem isExported_image_name_with_tag_list (up : Char → Bool) :
    isExported up "image_name_with_tag_list" = false := rfl

theorem isExported_scan_id_list (up : Char → Bool) : isExported up "scan_id_list" = false := rfl

theorem isExported_time_stamp (up : Char → Bool) : isExported up "time_stamp" = false := rfl

theorem isExported_at_timestamp (up : Char → Bool) : isExported up "@timestamp" = false := rfl

theorem isExported_node_id (up : Char → Bool) : isExported up "node_id" = false := rfl

theorem isExported_node_name (up : Char → Bool) : isExported up "node_name" = false := rfl

theorem isExported_scan_id (up : Char → Bool) : isExported up "scan_id" = false := rfl

theorem inProgressDoc_lists {σ : Type} (env : Env σ) (imageName scanId : String)
    (postForm : Values) :
    (inProgressDoc env imageName scanId postForm).get "image_name_with_tag_list" = some .null ∧
    (inProgressDoc env imageName scanId postForm).get "scan_id_list" = some .null := by
  unfold inProgressDoc
  constructor
  · rw [Doc.get_set_ne _ _ _ _ (by decide), Doc.get_set_same]
  · rw [Doc.get_set_same]

theorem errorLogDoc_get (d : Doc) (err key : String) (h1 : key ≠ "scan_status")
    (h2 : key ≠ "scan_message") : (errorLogDoc d err).get key = d.get key := by
  unfold errorLogDoc
  rw [Doc.get_set_ne _ _ _ _ h2, Doc.get_set_ne _ _ _ _ h1]

theorem errorLogDoc_status (d : Doc) (err : String) :
    (errorLogDoc d err).get "scan_status" = some (.str "ERROR") ∧
    (errorLogDoc d err).get "scan_message" = some (.str err) := by
  unfold errorLogDoc
  constructor
  · rw [Doc.get_set_ne _ _ _ _ (by decide), Doc.get_set_same]
  · rw [Doc.get_set_same]

theorem finalLogDoc_get (d : Doc) (timestamp : Int) (currTime key : String)
    (h1 : key ≠ "scan_status") (h2 : key ≠ "time_stamp") (h3 : key ≠ "@timestamp") :
    (finalLogDoc d none timestamp currTime).get key = d.get key := by
  unfold finalLogDoc
  rw [Doc.get_set_ne _ _ _ _ h3, Doc.get_set_ne _ _ _ _ h2, Doc.get_set_ne _ _ _ _ h1]

theorem finalLogDoc_status (d : Doc) (timestamp : Int) (currTime : String) :
    (finalLogDoc d none timestamp currTime).get "scan_status" = some (.str scanStatusComplete) ∧
    (finalLogDoc d none timestamp currTime).get "time_stamp" = some (.int timestamp) ∧
    (finalLogDoc d none timestamp currTime).get "@timestamp" = some (.str currTime) := by
  unfold finalLogDoc
  refine ⟨?_, ?_, ?_⟩
  · rw [Doc.get_set_ne _ _ _ _ (by decide), Doc.get_set_ne _ _ _ _ (by decide),
      Doc.get_set_same]
  · rw [Doc.get_set_ne _ _ _ _ (by decide), Doc.get_set_same]
  · rw [Doc.get_set_same]

theorem secretScanDoc_fields {σ : Type} (env : Env σ) (imageName scanId : String)
    (postForm : Values) (timestamp : Int) (currTime : String) (secret : SecretInfo) :
    let d := secretScanDoc env imageName scanId postForm timestamp currTime secret
    d.get "image_name_with_tag_list" = some .null ∧
    d.get "scan_id_list" = some .null ∧
    d.get "time_stamp" = some (.int timestamp) ∧
    d.get "@timestamp" = some (.str currTime) ∧
    d.get "node_id" = some (.str imageName) ∧
    d.get "node_name" = some (.str imageName) ∧
    d.get "scan_id" = some (.str scanId) := by
  intro d
  refine ⟨?_, ?_, ?_, ?_, ?_, ?_, ?_⟩
  · show (reflectFields _ _ _).get _ = _
    rw [reflectFields_get _ _ (isExported_image_name_with_tag_list _),
      Doc.get_set_ne _ _ _ _ (by decide), Doc.get_set_ne _ _ _ _ (by decide),
      Doc.get_set_ne _ _ _ _ (by decide), Doc.get_set_ne _ _ _ _ (by decide),
      Doc.get_set_ne _ _ _ _ (by decide), Doc.get_set_ne _ _ _ _ (by decide),
      Doc.get_set_same]
  · show (reflectFields _ _ _).get _ = _
    rw [reflectFields_get _ _ (isExported_scan_id_list _),
      Doc.get_set_ne _ _ _ _ (by decide), Doc.get_set_ne _ _ _ _ (by decide),
      Doc.get_set_ne _ _ _ _ (by decide), Doc.get_set_ne _ _ _ _ (by decide),
      Doc.get_set_ne _ _ _ _ (by decide), Doc.get_set_same]
  · show (reflectFields _ _ _).get _ = _
    rw [reflectFields_get _ _ (isExported_time_stamp _),
      Doc.get_set_ne _ _ _ _ (by decide), Doc.get_set_ne _ _ _ _ (by decide),
      Doc.get_set_ne _ _ _ _ (by decide), Doc.get_set_ne _ _ _ _ (by decide),
      Doc.get_set_same]
  · show (reflectFields _ _ _).get _ = _
    rw [reflectFields_get _ _ (isExported_at_timestamp _),
      Doc.get_set_ne _ _ _ _ (by decide), Doc.get_set_ne _ _ _ _ (by decide),
      Doc.get_set_ne _ _ _ _ (by decide), Doc.get_set_same]
  · show (reflectFields _ _ _).get _ = _
    rw [reflectFields_get _ _ (isExported_node_id _),
      Doc.get_set_ne _ _ _ _ (by decide), Doc.get_set_ne _ _ _ _ (by decide),
      Doc.get_set_same]
  · show (reflectFields _ _ _).get _ = _
    rw [reflectFields_get _ _ (isExported_node_name _),
      Doc.get_set_ne _ _ _ _ (by decide), Doc.get_set_same]
  · show (reflectFields _ _ _).get _ = _
    rw [reflectFields_get _ _ (isExported_scan_id _), Doc.get_set_same]

/-! ## C1: the batch-level list fields -/

/-- C1, as stated, fails: for the job (`alpine:3.18`, `s1`, `alpineForm`) with one finding,
each of the three documents handed to the sink (two status documents, one result document)
contains the key `image_name_with_tag_list` and the key `scan_id_list`; lines 163-164 and
199-200 store both keys, with the value `nil`. -/
theorem C1_counterexample :
    (scanAndPublish (okEnv (.ok [awsKeySecret]) none) "alpine:3.18" "s1" "/tmp/alpine:3.18"
        alpineForm Trace.init).sink.map
      (fun c => (c.doc.contains "image_name_with_tag_list", c.doc.contains "scan_id_list")) =
      [(true, true), (true, true), (true, true)] := by
  decide

/-- C1, amended: for every job and every outcome of the scan step, every document that
`scanAndPublish` hands to the sink, status and result documents alike, holds the keys
`image_name_with_tag_list` and `scan_id_list` with the value `nil` (JSON `null`), hence never a
list nor an identifier of the batch. -/
theorem C1_list_fields_are_null {σ : Type} (env : Env σ) (imageName scanId tempDir : String)
    (postForm : Values) :
    ∀ c ∈ (scanAndPublish env imageName scanId tempDir postForm Trace.init).sink,
      c.doc.get "image_name_with_tag_list" = some Value.null ∧
        c.doc.get "scan_id_list" = some Value.null := by
  intro c hc
  have hip := inProgressDoc_lists env imageName scanId postForm
  cases hscan : env.ExtractAndScanFromTar tempDir imageName with
  | error e =>
    rw [scanAndPublish_sink_error env _ _ _ _ _ e hscan] at hc
    simp only [Trace.init, List.nil_append, List.mem_cons, List.mem_singleton,
      List.not_mem_nil, or_false] at hc
    rcases hc with rfl | rfl
    · exact hip
    · exact ⟨by rw [errorLogDoc_get _ _ _ (by decide) (by decide)]; exact hip.1,
        by rw [errorLogDoc_get _ _ _ (by decide) (by decide)]; exact hip.2⟩
  | ok res =>
    rw [scanAndPublish_sink_ok env _ _ _ _ _ res hscan] at hc
    simp only [Trace.init, List.nil_append, List.mem_append, List.mem_singleton] at hc
    rcases hc with (rfl | hc) | hc
    · exact hip
    · obtain ⟨secret, _, rfl⟩ := List.mem_map.1 hc
      have hf := secretScanDoc_fields env imageName scanId postForm (env.GetTimestamp 1)
        (env.GetCurrentTime 1) secret
      exact ⟨hf.1, hf.2.1⟩
    · split at hc
      · rw [List.mem_singleton] at hc
        subst hc
        exact ⟨by rw [finalLogDoc_get _ _ _ _ (by decide) (by decide) (by decide)]; exact hip.1,
          by rw [finalLogDoc_get _ _ _ _ (by decide) (by decide) (by decide)]; exact hip.2⟩
      · exact absurd hc (List.not_mem_nil _)

/-- Witness of C1, amended, at the result document of the job (`alpine:3.18`, `s1`) whose scan
finds `awsKeySecret`, the sink answering with an error. -/
theorem C1_list_fields_are_null_witness :
    resultCall (okEnv (.ok [awsKeySecret]) (some "sink down")) "alpine:3.18" "s1" alpineForm
        1700000001 "2023-11-14T22:13:21.000Z" awsKeySecret ∈
      (scanAndPublish (okEnv (.ok [awsKeySecret]) (some "sink down")) "alpine:3.18" "s1"
        "/tmp/alpine:3.18" alpineForm Trace.init).sink ∧
    ((resultCall (okEnv (.ok [awsKeySecret]) (some "sink down")) "alpine:3.18" "s1" alpineForm
        1700000001 "2023-11-14T22:13:21.000Z" awsKeySecret).doc.get
          "image_name_with_tag_list" = some Value.null ∧
      (resultCall (okEnv (.ok [awsKeySecret]) (some "sink down")) "alpine:3.18" "s1" alpineForm
        1700000001 "2023-11-14T22:13:21.000Z" awsKeySecret).doc.get
          "scan_id_list" = some Value.null) :=
  ⟨by decide,
    C1_list_fields_are_null (okEnv (.ok [awsKeySecret]) (some "sink down")) "alpine:3.18" "s1"
      "/tmp/alpine:3.18" alpineForm _ (by decide)⟩

/-! ## C2: the node identity of status documents -/

/-- C2 fails on the code: for the job (`alpine:3.18`, `s1`) whose form carries
`node_id=other-host`, the two status documents are handed over with `node_id = other-host`
(lines 158-162 copy the form after lines 153-154 set the identity), while the result document,
built the other way round (lines 194-204), has `node_id = alpine:3.18`. -/
theorem C2_status_node_id_overridden :
    (scanAndPublish (okEnv (.ok [awsKeySecret]) none) "alpine:3.18" "s1" "/tmp/alpine:3.18"
        nodeIdForm Trace.init).sink.map (fun c => (c.indexName, c.doc.get "node_id")) =
      [("secret-scan-logs", some (Value.str "other-host")),
        ("secret-scan", some (Value.str "alpine:3.18")),
        ("secret-scan-logs", some (Value.str "other-host"))] := by
  decide

/-! ## C3, C9: a successful scan -/

theorem logsIndex_ne : secretScanLogsIndexName ≠ secretScanIndexName := by decide

theorem logsIndex_bne : ¬ (secretScanLogsIndexName == secretScanIndexName) = true := by decide

theorem takeWhile_of_all {α : Type} (p : α → Bool) (l : List α) (h : ∀ a ∈ l, p a = true) :
    l.takeWhile p = l := by
  induction l with
  | nil => rfl
  | cons a rest ih =>
    rw [List.takeWhile_cons, h a (List.mem_cons_self _ _)]
    simp only [if_true]
    rw [ih (fun b hb => h b (List.mem_cons_of_mem _ hb))]

theorem scanAndPublish_sink_complete {σ : Type} (env : Env σ)
    (imageName scanId tempDir : String) (postForm : Values) (t : Trace) (res : List σ)
    (hscan : env.ExtractAndScanFromTar tempDir imageName = .ok res)
    (hser : ∀ secret ∈ env.SecretsToSecretInfos res,
      serialises (secretScanDoc env imageName scanId postForm (env.GetTimestamp 1)
        (env.GetCurrentTime 1) secret) = true) :
    (scanAndPublish env imageName scanId tempDir postForm t).sink =
      t.sink ++ [⟨inProgressDoc env imageName scanId postForm, secretScanLogsIndexName⟩] ++
        (env.SecretsToSecretInfos res).map
          (resultCall env imageName scanId postForm (env.GetTimestamp 1)
            (env.GetCurrentTime 1)) ++
        [⟨finalLogDoc (inProgressDoc env imageName scanId postForm) none
          (env.GetTimestamp 1) (env.GetCurrentTime 1), secretScanLogsIndexName⟩] := by
  rw [scanAndPublish_sink_ok env _ _ _ _ _ res hscan, takeWhile_of_all _ _ hser,
    List.all_eq_true.2 hser]
  simp

theorem filter_result_calls {σ : Type} (env : Env σ) (imageName scanId : String)
    (postForm : Values) (timestamp : Int) (currTime : String) (secrets : List SecretInfo) :
    (secrets.map (resultCall env imageName scanId postForm timestamp currTime)).filter
        (fun c => c.indexName == secretScanIndexName) =
      secrets.map (resultCall env imageName scanId postForm timestamp currTime) := by
  apply List.filter_eq_self.2
  intro c hc
  obtain ⟨secret, _, rfl⟩ := List.mem_map.1 hc
  simp [resultCall]

/-- C3: when the scan step succeeds and every result document serialises, the documents
`scanAndPublish` hands to the sink under the index `secret-scan` are exactly the documents of
the findings (the records `output.SecretsToSecretInfos(res.Secrets)` yields), one per finding in
finding order, as many as there are findings, each with `node_id` the image name and `scan_id`
the scan id, whatever the sink answers. -/
theorem C3_result_documents {σ : Type} (env : Env σ) (imageName scanId tempDir : String)
    (postForm : Values) (res : List σ)
    (hscan : env.ExtractAndScanFromTar tempDir imageName = .ok res)
    (hser : ∀ secret ∈ env.SecretsToSecretInfos res,
      serialises (secretScanDoc env imageName scanId postForm (env.GetTimestamp 1)
        (env.GetCurrentTime 1) secret) = true) :
    ((scanAndPublish env imageName scanId tempDir postForm Trace.init).sink.filter
        (fun c => c.indexName == secretScanIndexName) =
      (env.SecretsToSecretInfos res).map
        (resultCall env imageName scanId postForm (env.GetTimestamp 1)
          (env.GetCurrentTime 1))) ∧
    ((scanAndPublish env imageName scanId tempDir postForm Trace.init).sink.filter
        (fun c => c.indexName == secretScanIndexName)).length =
      (env.SecretsToSecretInfos res).length ∧
    ∀ c ∈ (scanAndPublish env imageName scanId tempDir postForm Trace.init).sink.filter
        (fun c => c.indexName == secretScanIndexName),
      c.doc.get "node_id" = some (Value.str imageName) ∧
        c.doc.get "scan_id" = some (Value.str scanId) := by
  have hsink : (scanAndPublish env imageName scanId tempDir postForm Trace.init).sink.filter
        (fun c => c.indexName == secretScanIndexName) =
      (env.SecretsToSecretInfos res).map
        (resultCall env imageName scanId postForm (env.GetTimestamp 1)
          (env.GetCurrentTime 1)) := by
    rw [scanAndPublish_sink_complete env _ _ _ _ _ res hscan hser]
    simp only [Trace.init, List.nil_append, List.filter_append, filter_result_calls]
    have h1 : ([⟨inProgressDoc env imageName scanId postForm, secretScanLogsIndexName⟩] :
        List IngestCall).filter (fun c => c.indexName == secretScanIndexName) = [] := by
      rw [List.filter_eq_nil_iff]
      intro c hc
      rw [List.mem_singleton] at hc
      subst hc
      exact logsIndex_bne
    have h2 : ([⟨finalLogDoc (inProgressDoc env imageName scanId postForm) none
          (env.GetTimestamp 1) (env.GetCurrentTime 1), secretScanLogsIndexName⟩] :
        List IngestCall).filter (fun c => c.indexName == secretScanIndexName) = [] := by
      rw [List.filter_eq_nil_iff]
      intro c hc
      rw [List.mem_singleton] at hc
      subst hc
      exact logsIndex_bne
    rw [h1, h2]
    simp
  refine ⟨hsink, ?_, ?_⟩
  · rw [hsink, List.length_map]
  · intro c hc
    rw [hsink] at hc
    obtain ⟨secret, _, rfl⟩ := List.mem_map.1 hc
    have hf := secretScanDoc_fields env imageName scanId postForm (env.GetTimestamp 1)
      (env.GetCurrentTime 1) secret
    exact ⟨hf.2.2.2.2.1, hf.2.2.2.2.2.2⟩

/-- Witness of C3: the job (`alpine:3.18`, `s1`) whose scan finds `awsKeySecret` twice, the
sink answering every call with an error. -/
theorem C3_result_documents_witness :
    (okEnv (.ok [awsKeySecret, awsKeySecret]) (some "sink down")).ExtractAndScanFromTar
        "/tmp/alpine:3.18" "alpine:3.18" = .ok [awsKeySecret, awsKeySecret] ∧
      ((scanAndPublish (okEnv (.ok [awsKeySecret, awsKeySecret]) (some "sink down"))
        "alpine:3.18" "s1" "/tmp/alpine:3.18" alpineForm Trace.init).sink.filter
          (fun c => c.indexName == secretScanIndexName)).length = 2 :=
  ⟨rfl,
    (C3_result_documents (okEnv (.ok [awsKeySecret, awsKeySecret]) (some "sink down"))
      "alpine:3.18" "s1" "/tmp/alpine:3.18" alpineForm [awsKeySecret, awsKeySecret] rfl
      (by decide)).2.1⟩

/-- C9: when the scan step succeeds and every result document serialises, whatever the sink
answers, the last document `scanAndPublish` hands to the sink is a status document with
`scan_status = COMPLETE` (not `ERROR`), whose `time_stamp` and `@timestamp` are the pair read
after the scan, the same pair every result document of the job carries. -/
theorem C9_final_status {σ : Type} (env : Env σ) (imageName scanId tempDir : String)
    (postForm : Values) (res : List σ)
    (hscan : env.ExtractAndScanFromTar tempDir imageName = .ok res)
    (hser : ∀ secret ∈ env.SecretsToSecretInfos res,
      serialises (secretScanDoc env imageName scanId postForm (env.GetTimestamp 1)
        (env.GetCurrentTime 1) secret) = true) :
    ∃ final,
      (scanAndPublish env imageName scanId tempDir postForm Trace.init).sink.getLast? =
        some final ∧
      final.indexName = secretScanLogsIndexName ∧
      final.doc.get "scan_status" = some (Value.str scanStatusComplete) ∧
      final.doc.get "scan_status" ≠ some (Value.str scanStatusError) ∧
      final.doc.get "time_stamp" = some (Value.int (env.GetTimestamp 1)) ∧
      final.doc.get "@timestamp" = some (Value.str (env.GetCurrentTime 1)) ∧
      ∀ c ∈ (scanAndPublish env imageName scanId tempDir postForm Trace.init).sink,
        c.indexName = secretScanIndexName →
          c.doc.get "time_stamp" = final.doc.get "time_stamp" ∧
            c.doc.get "@timestamp" = final.doc.get "@timestamp" := by
  have hfin := finalLogDoc_status (inProgressDoc env imageName scanId postForm)
    (env.GetTimestamp 1) (env.GetCurrentTime 1)
  refine ⟨⟨finalLogDoc (inProgressDoc env imageName scanId postForm) none
    (env.GetTimestamp 1) (env.GetCurrentTime 1), secretScanLogsIndexName⟩, ?_, rfl, hfin.1, ?_,
    hfin.2.1, hfin.2.2, ?_⟩
  · rw [scanAndPublish_sink_complete env _ _ _ _ _ res hscan hser]
    exact List.getLast?_concat _
  · rw [hfin.1]
    decide
  · intro c hc hidx
    rw [scanAndPublish_sink_complete env _ _ _ _ _ res hscan hser] at hc
    simp only [Trace.init, List.nil_append, List.mem_append, List.mem_singleton] at hc
    rcases hc with (rfl | hc) | rfl
    · exact absurd hidx logsIndex_ne
    · obtain ⟨secret, _, rfl⟩ := List.mem_map.1 hc
      have hf := secretScanDoc_fields env imageName scanId postForm (env.GetTimestamp 1)
        (env.GetCurrentTime 1) secret
      exact ⟨hf.2.2.1.trans hfin.2.1.symm, hf.2.2.2.1.trans hfin.2.2.symm⟩
    · exact absurd hidx logsIndex_ne

/-- Witness of C9: the job (`alpine:3.18`, `s1`) whose scan finds `awsKeySecret`, the sink
answering every call with an error. -/
theorem C9_final_status_witness :
    (okEnv (.ok [awsKeySecret]) (some "sink down")).ExtractAndScanFromTar
        "/tmp/alpine:3.18" "alpine:3.18" = .ok [awsKeySecret] ∧
      (scanAndPublish (okEnv (.ok [awsKeySecret]) (some "sink down")) "alpine:3.18" "s1"
        "/tmp/alpine:3.18" alpineForm Trace.init).sink.getLast?.bind
          (fun c => c.doc.get "scan_status") = some (Value.str "COMPLETE") := by
  obtain ⟨final, h1, _, h3, _⟩ :=
    C9_final_status (okEnv (.ok [awsKeySecret]) (some "sink down")) "alpine:3.18" "s1"
      "/tmp/alpine:3.18" alpineForm [awsKeySecret] rfl (by decide)
  refine ⟨rfl, ?_⟩
  rw [h1]
  exact h3

/-! ## C4: a failed scan -/

/-- C4, as stated, fails: when the scan step of the job (`alpine:3.18`, `s1`) fails with an
error whose message is empty, the last status document handed to the sink has
`scan_message = ""`, which is not a non-empty message. -/
theorem C4_counterexample :
    (okEnv (.error "") none).ExtractAndScanFromTar "/tmp/alpine:3.18" "alpine:3.18" =
        .error "" ∧
      ((scanAndPublish (okEnv (.error "") none) "alpine:3.18" "s1" "/tmp/alpine:3.18"
          alpineForm Trace.init).sink.filter
            (fun c => c.indexName == secretScanLogsIndexName)).getLast?.bind
          (fun c => c.doc.get "scan_message") = some (Value.str "") :=
  ⟨rfl, by decide⟩

/-- C4, amended: when the scan step fails with an error, the last status document
`scanAndPublish` hands to the sink has `scan_status = ERROR` and a `scan_message` equal to the
failure message of the scan step (so non-empty whenever that message is), and no document is
handed to the sink under the result index `secret-scan`. -/
theorem C4_scan_error_status {σ : Type} (env : Env σ) (imageName scanId tempDir : String)
    (postForm : Values) (e : String)
    (hscan : env.ExtractAndScanFromTar tempDir imageName = .error e) :
    (∃ last,
      ((scanAndPublish env imageName scanId tempDir postForm Trace.init).sink.filter
        (fun c => c.indexName == secretScanLogsIndexName)).getLast? = some last ∧
      last.doc.get "scan_status" = some (Value.str scanStatusError) ∧
      last.doc.get "scan_message" = some (Value.str e) ∧
      (e ≠ "" → last.doc.get "scan_message" ≠ some (Value.str ""))) ∧
    (scanAndPublish env imageName scanId tempDir postForm Trace.init).sink.filter
      (fun c => c.indexName == secretScanIndexName) = [] := by
  have hst := errorLogDoc_status (inProgressDoc env imageName scanId postForm) e
  rw [scanAndPublish_sink_error env _ _ _ _ _ e hscan]
  constructor
  · refine ⟨⟨errorLogDoc (inProgressDoc env imageName scanId postForm) e,
      secretScanLogsIndexName⟩, ?_, hst.1, hst.2, ?_⟩
    · simp [Trace.init]
    · intro hne h
      rw [hst.2] at h
      injection h with h
      injection h with h
      exact hne h
  · rw [List.filter_eq_nil_iff]
    intro c hc
    simp only [Trace.init, List.nil_append, List.mem_cons, List.mem_singleton,
      List.not_mem_nil, or_false] at hc
    rcases hc with rfl | rfl <;> exact logsIndex_bne

/-- Witness of C4, amended: the scan of the job (`alpine:3.18`, `s1`) fails with the message
`no such file`. -/
theorem C4_scan_error_status_witness :
    (okEnv (.error "no such file") (some "sink down")).ExtractAndScanFromTar
        "/tmp/alpine:3.18" "alpine:3.18" = .error "no such file" ∧
      (scanAndPublish (okEnv (.error "no such file") (some "sink down")) "alpine:3.18" "s1"
        "/tmp/alpine:3.18" alpineForm Trace.init).sink.filter
          (fun c => c.indexName == secretScanIndexName) = [] :=
  ⟨rfl,
    (C4_scan_error_status (okEnv (.error "no such file") (some "sink down")) "alpine:3.18"
      "s1" "/tmp/alpine:3.18" alpineForm "no such file" rfl).2⟩

/-! ## C5: a terminal status document -/

/-- C5, as stated, fails: when temp-dir creation fails, `processImage` returns at line 136 and
hands the sink no document at all, so none with `scan_status` `COMPLETE` or `ERROR`. -/
theorem C5_counterexample :
    (processImage noTmpDirEnv "alpine:3.18" "s1" alpineForm Trace.init).sink = [] ∧
      (processImage noTmpDirEnv "alpine:3.18" "s1" alpineForm Trace.init).log =
        ["error creating temp dirs:mkdir /tmp: no space left on device"] := by
  decide

/-- C5, amended: when temp-dir creation and image acquisition succeed and the scan step
either fails or yields findings whose documents all serialise, `processImage` hands the sink a
status document whose `scan_status` is `COMPLETE` or `ERROR`, whatever the sink answers; when
temp-dir creation fails, `processImage` prints `error creating temp dirs:` followed by the
error and hands the sink nothing; when image acquisition fails, it prints the output line of
the command (`<nil>` for the missing buffer) and `error saving image:` followed by the error of
`runCommand`, and hands the sink nothing. -/
theorem C5_terminal_status {σ : Type} (env : Env σ) (imageName scanId : String)
    (form : Values) :
    (∀ tempFolder, env.GetTmpDir imageName = .ok tempFolder →
      (env.cmdRun (imageSaveCommand env imageName form tempFolder)).err = none →
      (∀ res, env.ExtractAndScanFromTar tempFolder imageName = .ok res →
        ∀ secret ∈ env.SecretsToSecretInfos res,
          serialises (secretScanDoc env imageName scanId form (env.GetTimestamp 1)
            (env.GetCurrentTime 1) secret) = true) →
      ∃ c ∈ (processImage env imageName scanId form Trace.init).sink,
        c.indexName = secretScanLogsIndexName ∧
          (c.doc.get "scan_status" = some (Value.str scanStatusComplete) ∨
            c.doc.get "scan_status" = some (Value.str scanStatusError))) ∧
    (∀ e, env.GetTmpDir imageName = .error e →
      processImage env imageName scanId form Trace.init =
        ⟨[], ["error creating temp dirs:" ++ e]⟩) ∧
    (∀ tempFolder errorOnRun, env.GetTmpDir imageName = .ok tempFolder →
      (env.cmdRun (imageSaveCommand env imageName form tempFolder)).err = some errorOnRun →
      processImage env imageName scanId form Trace.init =
        ⟨[], ["Output from python save:<nil>",
          "error saving image:" ++ ("Image Save:" ++ imageName ++ errorOnRun ++ ": " ++
            (env.cmdRun (imageSaveCommand env imageName form tempFolder)).stderr)]⟩) := by
  refine ⟨?_, ?_, ?_⟩
  · intro tempFolder htmp hrun hser
    have hproc : (processImage env imageName scanId form Trace.init).sink =
        (scanAndPublish env imageName scanId tempFolder form
          (Trace.init.println ("Output from python save:" ++
            bufferString (some (env.cmdRun
              (imageSaveCommand env imageName form tempFolder)).stdout)))).sink := by
      simp only [processImage, htmp, runCommand, hrun]
    rw [hproc]
    cases hscan : env.ExtractAndScanFromTar tempFolder imageName with
    | error e =>
      rw [scanAndPublish_sink_error env _ _ _ _ _ e hscan]
      refine ⟨⟨errorLogDoc (inProgressDoc env imageName scanId form) e,
        secretScanLogsIndexName⟩, by simp, rfl, Or.inr ?_⟩
      exact (errorLogDoc_status _ e).1
    | ok res =>
      rw [scanAndPublish_sink_complete env _ _ _ _ _ res hscan (hser res hscan)]
      refine ⟨⟨finalLogDoc (inProgressDoc env imageName scanId form) none
        (env.GetTimestamp 1) (env.GetCurrentTime 1), secretScanLogsIndexName⟩, by simp, rfl,
        Or.inl ?_⟩
      exact (finalLogDoc_status _ _ _).1
  · intro e htmp
    simp [processImage, htmp, Trace.println, Trace.init]
  · intro tempFolder errorOnRun htmp hrun
    simp [processImage, htmp, runCommand, hrun, Trace.println, Trace.init, bufferString]

/-- Witness of C5, amended: the job (`alpine:3.18`, `s1`) with every stage succeeding and the
scan finding `awsKeySecret`; with a failing temp-dir creation; with a failing image-save
command. -/
theorem C5_terminal_status_witness :
    (∃ c ∈ (processImage (okEnv (.ok [awsKeySecret]) none) "alpine:3.18" "s1" alpineForm
        Trace.init).sink,
      c.indexName = secretScanLogsIndexName ∧
        (c.doc.get "scan_status" = some (Value.str scanStatusComplete) ∨
          c.doc.get "scan_status" = some (Value.str scanStatusError))) ∧
    processImage noTmpDirEnv "alpine:3.18" "s1" alpineForm Trace.init =
      ⟨[], ["error creating temp dirs:" ++ "mkdir /tmp: no space left on device"]⟩ ∧
    processImage noSaveEnv "alpine:3.18" "s1" alpineForm Trace.init =
      ⟨[], ["Output from python save:<nil>",
        "error saving image:" ++ ("Image Save:" ++ "alpine:3.18" ++ "exit status 1" ++ ": " ++
          "pull denied")]⟩ :=
  ⟨(C5_terminal_status (okEnv (.ok [awsKeySecret]) none) "alpine:3.18" "s1" alpineForm).1
    "/tmp/alpine:3.18" rfl (by decide) (by
      intro res hres
      have hr : res = [awsKeySecret] := by
        have h : (Except.ok [awsKeySecret] : Except String (List SecretInfo)) = .ok res := hres
        injection h with h
        exact h.symm
      subst hr
      decide),
    (C5_terminal_status noTmpDirEnv "alpine:3.18" "s1" alpineForm).2.1
      "mkdir /tmp: no space left on device" rfl,
    (C5_terminal_status noSaveEnv "alpine:3.18" "s1" alpineForm).2.2
      "/tmp/alpine:3.18" "exit status 1" rfl rfl⟩

/-! ## C6: the intake handler -/

/-- C6, as stated, fails at two requests whose form field `image_name_with_tag_list` holds the
identifier `alpine:3.18`. When `ParseForm` reports an error, `runSecretScan` takes the branch of
lines 56-58: status 200, the text `ParseForm() err: ...` and no `processScans`. When the form
parses and the field is the list `""`, `alpine:3.18`, line 59 reads the first value only: status
409 and no `processScans`. -/
theorem C6_counterexample :
    (badEscapeRequest.PostForm.index "image_name_with_tag_list" = ["alpine:3.18"] ∧
      (runSecretScan badEscapeRequest).status = 200 ∧
      (runSecretScan badEscapeRequest).body = "ParseForm() err: invalid URL escape \"%zz\"" ∧
      (runSecretScan badEscapeRequest).spawned = none) ∧
    ((⟨none, emptyFirstForm⟩ : Request).PostForm.index "image_name_with_tag_list" =
        ["", "alpine:3.18"] ∧
      (runSecretScan ⟨none, emptyFirstForm⟩).status = 409 ∧
      (runSecretScan ⟨none, emptyFirstForm⟩).spawned = none) := by
  decide

/-- C6, amended: for every batch request handled by `runSecretScan`: when `ParseForm` reports
an error, the response is the text `ParseForm() err: ` followed by the error, with status 200,
and `processScans` is not started, whatever the form holds; when `ParseForm` succeeds and the
form field `image_name_with_tag_list` is missing, has no value or has the empty string as its
first value (whatever its later values), the response has status 409 with the JSON body
`\x7b"error":"Image Name with tag list is required "\x7d` and `processScans` is not started;
when `ParseForm` succeeds and the first value of the field is a non-empty identifier, the
response has status 200 with body `\x7b"status": "Scan Queued"\x7d` and the form is handed to
`processScans`. -/
theorem C6_parsed_request (request : Request) :
    (∀ err, request.parseFormErr = some err →
      runSecretScan request = ⟨200, none, "ParseForm() err: " ++ err, none⟩) ∧
    (request.parseFormErr = none →
      (request.PostForm.index "image_name_with_tag_list" = [] ∨
          (request.PostForm.index "image_name_with_tag_list").head? = some "") →
      runSecretScan request =
        ⟨409, some "text/plain; charset=utf-8",
          "\x7b\"error\":\"Image Name with tag list is required \"\x7d\n", none⟩) ∧
    (request.parseFormErr = none →
      (∀ first rest, request.PostForm.index "image_name_with_tag_list" = first :: rest →
        first ≠ "" →
        runSecretScan request =
          ⟨200, some "application/json", "\x7b\"status\": \"Scan Queued\"\x7d",
            some request.PostForm⟩)) := by
  refine ⟨?_, ?_, ?_⟩
  · intro err hparse
    simp [runSecretScan, hparse, StatusOK]
  · intro hparse hempty
    have hget : request.PostForm.Get "image_name_with_tag_list" = "" := by
      unfold Values.Get
      rcases hempty with h | h
      · rw [h]
        rfl
      · cases hl : request.PostForm.index "image_name_with_tag_list" with
        | nil => rfl
        | cons first rest =>
          rw [hl] at h
          simp only [List.head?_cons, Option.some.injEq] at h
          simp [h]
    simp [runSecretScan, hparse, hget, StatusConflict]
  · intro hparse first rest hl hne
    have hget : request.PostForm.Get "image_name_with_tag_list" = first := by
      unfold Values.Get
      rw [hl]
      rfl
    simp [runSecretScan, hparse, hget, hne, StatusOK]

/-- Witness of C6, amended: the request with a bad escape, the parsed request whose field
starts with an empty value, and the parsed request with the form `alpineForm`. -/
theorem C6_parsed_request_witness :
    runSecretScan badEscapeRequest =
      ⟨200, none, "ParseForm() err: " ++ "invalid URL escape \"%zz\"", none⟩ ∧
    runSecretScan ⟨none, emptyFirstForm⟩ =
      ⟨409, some "text/plain; charset=utf-8",
        "\x7b\"error\":\"Image Name with tag list is required \"\x7d\n", none⟩ ∧
    runSecretScan ⟨none, alpineForm⟩ =
      ⟨200, some "application/json", "\x7b\"status\": \"Scan Queued\"\x7d",
        some alpineForm⟩ :=
  ⟨(C6_parsed_request badEscapeRequest).1 "invalid URL escape \"%zz\"" rfl,
    (C6_parsed_request ⟨none, emptyFirstForm⟩).2.1 rfl (Or.inr (by decide)),
    (C6_parsed_request ⟨none, alpineForm⟩).2.2 rfl "alpine:3.18" [] (by decide) (by decide)⟩

/-! ## C7, C8: the dispatcher -/

/-- C7 fails on the code: the batch with two images and one scan id is acknowledged with
status 200 and handed to `processScans`, which hands the job (`alpine:3.18`, `s1`) to the pool
and then evaluates `form["scan_id_list"][1]` on a slice of length 1. -/
theorem C7_mismatched_batch_dispatched :
    (runSecretScan ⟨none, mismatchedForm⟩).status = 200 ∧
      (runSecretScan ⟨none, mismatchedForm⟩).spawned = some mismatchedForm ∧
      processScans mismatchedForm =
        ⟨[⟨"alpine:3.18", "s1", mismatchedForm⟩], some (1, 1)⟩ := by
  decide

theorem processScansFrom_eq (form : Values) (rest : List String) (index : Nat)
    (submitted : List imageParameters)
    (h : index + rest.length ≤ (form.index "scan_id_list").length) :
    processScansFrom form index rest submitted =
      ⟨submitted ++ List.zipWith (fun imageName scanId => ⟨imageName, scanId, form⟩) rest
        ((form.index "scan_id_list").drop index), none⟩ := by
  induction rest generalizing index submitted with
  | nil => simp [processScansFrom]
  | cons imageName rest ih =>
    have hlt : index < (form.index "scan_id_list").length := by
      simp only [List.length_cons] at h
      omega
    have hnext : index + 1 + rest.length ≤ (form.index "scan_id_list").length := by
      simp only [List.length_cons] at h
      omega
    simp only [processScansFrom, List.getElem?_eq_getElem hlt]
    rw [ih (index + 1) _ hnext, List.drop_eq_getElem_cons hlt]
    simp only [List.zipWith_cons_cons, List.append_assoc, List.singleton_append]

/-- C8: for every form whose `image_name_with_tag_list` and `scan_id_list` both have length
`N`, `processScans` runs to the end without a panic and hands exactly `N` jobs to the pool, the
job at every position `i < N` being the one with the `i`-th image name, the `i`-th scan id and
the whole form. -/
theorem C8_dispatch (form : Values) (N : Nat)
    (himg : (form.index "image_name_with_tag_list").length = N)
    (hsid : (form.index "scan_id_list").length = N) :
    (processScans form).panicked = none ∧
    (processScans form).submitted.length = N ∧
    ∀ i (h1 : i < (form.index "image_name_with_tag_list").length)
      (h2 : i < (form.index "scan_id_list").length),
      (processScans form).submitted[i]? =
        some ⟨(form.index "image_name_with_tag_list")[i], (form.index "scan_id_list")[i],
          form⟩ := by
  have heq : processScans form =
      ⟨List.zipWith (fun imageName scanId => ⟨imageName, scanId, form⟩)
        (form.index "image_name_with_tag_list") (form.index "scan_id_list"), none⟩ := by
    unfold processScans
    rw [processScansFrom_eq form _ 0 [] (by omega)]
    simp
  rw [heq]
  refine ⟨rfl, ?_, ?_⟩
  · simp [himg, hsid]
  · intro i h1 h2
    simp [List.getElem?_zipWith, List.getElem?_eq_getElem h1, List.getElem?_eq_getElem h2]

/-- Witness of C8: the form `alpineForm`, with one image and one scan id. -/
theorem C8_dispatch_witness :
    (alpineForm.index "image_name_with_tag_list").length = 1 ∧
      (alpineForm.index "scan_id_list").length = 1 ∧
      (processScans alpineForm).panicked = none ∧
      (processScans alpineForm).submitted.length = 1 :=
  ⟨by decide, by decide, (C8_dispatch alpineForm 1 (by decide) (by decide)).1,
    (C8_dispatch alpineForm 1 (by decide) (by decide)).2.1⟩

end SecretScanner
